import Mathlib

/-!
Shallow embedding of the two command-line tools of the rpy-tools repository
(`src/rpy_generator.py` and `src/rpy_indexer.py`).

Python strings are modelled as `List Char`.  Pure text-producing functions
become Lean functions returning the `List Char` they would have written to
their sink; the incremental character map of the generator is threaded as an
explicit association list.  `time.time()` (used only by `current_time_millis`)
is impure, so the current-millis value is passed to each modelled function as
an explicit `now : Nat` parameter.  The whitespace and digit predicates are the
ASCII fragment of Python's `str.strip` / `str.isdigit`.
-/

namespace RpyTools

/-- ASCII whitespace stripped by Python `str.strip()`. -/
def pyIsSpace (c : Char) : Bool :=
  c = ' ' || c = '\t' || c = '\n' || c = '\r' || c = '\x0b' || c = '\x0c'

/-- ASCII fragment of Python `str.isdigit` on a single character. -/
def pyIsDigit (c : Char) : Bool :=
  48 ≤ c.toNat && c.toNat ≤ 57

/-- Python `s.lstrip()` (whitespace). -/
def pyLStrip (l : List Char) : List Char :=
  l.dropWhile pyIsSpace

/-- Python `s.rstrip()` (whitespace). -/
def pyRStrip (l : List Char) : List Char :=
  (l.reverse.dropWhile pyIsSpace).reverse

/-- Python `s.strip()` (whitespace). -/
def pyStrip (l : List Char) : List Char :=
  pyRStrip (pyLStrip l)

/-- Python `s.replace(a, b)` for single-character `a`, `b`. -/
def pyReplaceChar (a b : Char) (l : List Char) : List Char :=
  l.map (fun c => if c = a then b else c)

/-- The decimal digit character for `d < 10`. -/
def digitChar (d : Nat) : Char :=
  Char.ofNat (48 + d)

/-- Fuel-driven decimal rendering helper (structural, so that it reduces). -/
def natToDecFuel : Nat → Nat → List Char
  | 0, _ => []
  | fuel + 1, n =>
    if n < 10 then [digitChar n]
    else natToDecFuel fuel (n / 10) ++ [digitChar (n % 10)]

/-- Decimal rendering of a natural number: Python `str(i)` for `i ≥ 0`. -/
def natToDec (n : Nat) : List Char :=
  natToDecFuel (n + 1) n

/-- Convenience: a Lean string literal as a `List Char`. -/
def strL (s : String) : List Char :=
  s.toList

/-- Constant `LABEL` of both source files. -/
def LABEL : List Char :=
  strL "label"

/-- Constant `TAB` of both source files. -/
def TAB : List Char :=
  strL "    "

/-- Constant `ELLIPSIS` of `rpy_generator.py`. -/
def ELLIPSIS : List Char :=
  strL "..."

/-- Constant `MAX_LABELS_PER_MENU` of both source files. -/
def MAX_LABELS_PER_MENU : Int :=
  20

/-- Python truthiness of an `Optional[str]` value. -/
def optTruthy : Option (List Char) → Bool
  | none => false
  | some l => !l.isEmpty

/-- Whether a Python string is non-empty and its first character `isdigit()`. -/
def headIsDigit : List Char → Bool
  | [] => false
  | c :: _ => pyIsDigit c

namespace rpy_generator

/-- The state of the local variable `label` in `normalize_label` after the
first two statements `if label: label = label.strip()` / `if not label:` of
`rpy_generator.normalize_label`: the empty list stands for a falsy value
(`None` or `""`). -/
def effLabel : Option (List Char) → List Char
  | none => []
  | some l => if l = [] then [] else pyStrip l

/-- `rpy_generator.normalize_label`.  `now` models `current_time_millis()`. -/
def normalize_label (now : Nat) (label default_label : Option (List Char)) :
    List Char :=
  let eff := effLabel label
  if eff = [] then
    match default_label with
    | some d => if d = [] then LABEL ++ '_' :: natToDec now else d
    | none => LABEL ++ '_' :: natToDec now
  else
    let r := pyReplaceChar ':' '_' (pyReplaceChar ' ' '_' eff)
    if headIsDigit r then LABEL ++ '_' :: r else r

/-- `rpy_generator.ScriptLine`. -/
structure ScriptLine where
  character_name : Option (List Char)
  phrase : List Char
deriving DecidableEq, Repr

/-- `rpy_generator.parse_text_line`. -/
def parse_text_line (line : List Char) : Option ScriptLine :=
  if line = [] then none
  else
    let line := pyStrip line
    if line = [] then none
    else
      let colon_index : Int :=
        match line.findIdx? (fun c => c = ':') with
        | none => -1
        | some i => (i : Int)
      if colon_index < 1 then
        -- character name not defined in screenplay line
        let line := line.dropWhile (fun c => c = ':')
        if line = [] then none
        else some ⟨none, line⟩
      else
        let ci : Nat := colon_index.toNat
        let character_name := pyRStrip (line.take ci)
        if colon_index = (line.length : Int) - 1 then
          some ⟨if character_name = [] then none else some character_name,
                ELLIPSIS⟩
        else
          let phrase := pyStrip (line.drop (ci + 1))
          if character_name = [] && phrase = [] then none
          else
            some ⟨if character_name = [] then none else some character_name,
                  if phrase = [] then ELLIPSIS else phrase⟩

/-- One call of the jump-menu writer: its `top_label`, `labels` and
`go_back_label` arguments.  `write_labels_to_script_file` is modelled at two
levels: the list of jump-menu calls it performs (`MenuPage` values, the
"pages"), and the text those calls write. -/
structure MenuPage where
  top_label : List Char
  labels : List (List Char)
  go_back_label : Option (List Char)
deriving DecidableEq, Repr

/-- `rpy_generator.write_jump_menu_to_script_file`: the exact text the call
writes to `script_file`. -/
def write_jump_menu_to_script_file (top_label : List Char)
    (labels : List (List Char)) (go_back_label : Option (List Char)) :
    List Char :=
  strL "label " ++ top_label ++ strL ":\n\n" ++
    (if optTruthy go_back_label = false ∧ labels = [] then strL "    pass\n"
     else
       strL "    menu:\n" ++
         (match go_back_label with
          | some g =>
            if g = [] then []
            else strL "        \"< BACK\":\n            jump " ++ g ++
              strL "\n\n"
          | none => []) ++
         labels.foldr
           (fun lb acc =>
             strL "        \"" ++ lb ++ strL "\":\n            jump " ++ lb ++
               strL "\n\n" ++ acc)
           [])

/-- Fuel-driven slicing helper: the successive slices
`labels[i : min(i + batch_size, labels_count)]` of the loop in
`batch_labels`, written structurally so that it reduces.  The callers always
supply `fuel = labels.length` and `n ≥ 1`, which makes the fuel sufficient. -/
def chunkFuel {α : Type} : Nat → Nat → List α → List (List α)
  | 0, _, _ => []
  | _, _, [] => []
  | fuel + 1, n, a :: t => (a :: t).take n :: chunkFuel fuel n ((a :: t).drop n)

/-- `rpy_generator.batch_labels` (the list of slices the generator yields). -/
def batch_labels {α : Type} (labels : List α) (batch_size : Int) :
    List (List α) :=
  if batch_size < 1 then []
  else if labels.isEmpty then []
  else chunkFuel labels.length batch_size.toNat labels

/-- The submenu-writing loop of `write_labels_to_script_file`: one `MenuPage`
per batch, with top label `f"{root_label}_{batch_number}"` starting from
`batch_number = i`, each with `go_back_label = root_label`. -/
def subPagesAux (root_label : List Char) :
    Nat → List (List (List Char)) → List MenuPage
  | _, [] => []
  | i, b :: bs =>
    ⟨root_label ++ '_' :: natToDec i, b, some root_label⟩ ::
      subPagesAux root_label (i + 1) bs

/-- `rpy_generator.write_labels_to_script_file`, call level: the sequence of
`write_jump_menu_to_script_file` calls it performs, in order. -/
def write_labels_to_script_file_pages (labels : List (List Char))
    (root_label : List Char) (label_page_size : Int) : List MenuPage :=
  let P := if label_page_size < 1 then MAX_LABELS_PER_MENU
           else label_page_size
  if labels = [] ∨ (labels.length : Int) ≤ P then [⟨root_label, labels, none⟩]
  else
    let subs := subPagesAux root_label 0 (batch_labels labels P)
    subs ++ [⟨root_label, subs.map MenuPage.top_label, none⟩]

/-- `rpy_generator.write_labels_to_script_file`, text level: the exact text it
writes to `script_file` (the concatenation of its jump-menu calls). -/
def write_labels_to_script_file (labels : List (List Char))
    (root_label : List Char) (label_page_size : Int) : List Char :=
  ((write_labels_to_script_file_pages labels root_label
      label_page_size).map
    (fun p =>
      write_jump_menu_to_script_file p.top_label p.labels
        p.go_back_label)).flatten

/-- Python `dict[str, str]` in insertion order: the character map. -/
abbrev CharMap := List (List Char × List Char)

/-- Python `dict` lookup on the insertion-ordered association list. -/
def lookupName : CharMap → List Char → Option (List Char)
  | [], _ => none
  | (k, v) :: t, n => if k = n then some v else lookupName t n

/-- The identifier `f"ch_0"`, `f"ch_1"`, ... assigned by
`character_map.setdefault(line.character_name, f"ch_0...")` for a map of the
given size. -/
def characterIdFor (k : Nat) : List Char :=
  strL "ch_" ++ natToDec k

/-- The text `f"{TAB}{script_line}\n"` written for one parsed line, given the
`character_id` value (`None` for narration). -/
def renderScriptLine (character_id : Option (List Char))
    (phrase : List Char) : List Char :=
  TAB ++
    (match character_id with
     | some cid =>
       if cid = [] then '"' :: phrase ++ ['"']
       else cid ++ ' ' :: '"' :: phrase ++ ['"']
     | none => '"' :: phrase ++ ['"']) ++ ['\n']

/-- One iteration of the loop in `write_lines_to_script_file`: the updated
character map (`setdefault` semantics) and the text written for the line. -/
def write_line_step (character_map : CharMap) (line : ScriptLine) :
    CharMap × List Char :=
  match line.character_name with
  | some name =>
    if name = [] then (character_map, renderScriptLine none line.phrase)
    else
      match lookupName character_map name with
      | some cid => (character_map, renderScriptLine (some cid) line.phrase)
      | none =>
        let cid := characterIdFor character_map.length
        (character_map ++ [(name, cid)],
          renderScriptLine (some cid) line.phrase)
  | none => (character_map, renderScriptLine none line.phrase)

/-- `rpy_generator.write_lines_to_script_file`: the final character map, the
per-line texts written (in order), and the returned `lines_count`. -/
def write_lines_to_script_file (character_map : CharMap) :
    List ScriptLine → CharMap × List (List Char) × Nat
  | [] => (character_map, [], 0)
  | l :: ls =>
    let s := write_line_step character_map l
    let r := write_lines_to_script_file s.1 ls
    (r.1, s.2 :: r.2.1, r.2.2 + 1)

/-- Specification-side characterization used by the first-seen-order claim:
the distinct non-empty speaker names among `lines` that are not already in
`known`, in order of first occurrence. -/
def firstSeenNew (known : List (List Char)) :
    List ScriptLine → List (List Char)
  | [] => []
  | l :: ls =>
    match l.character_name with
    | some n =>
      if n ≠ [] ∧ n ∉ known then n :: firstSeenNew (n :: known) ls
      else firstSeenNew known ls
    | none => firstSeenNew known ls

/-- Specification-side characterization: new map entries with consecutive
identifiers `ch_k`, `ch_(k+1)`, ... -/
def assignIds (k : Nat) : List (List Char) → CharMap
  | [] => []
  | n :: ns => (n, characterIdFor k) :: assignIds (k + 1) ns

end rpy_generator

namespace rpy_indexer

/-- `rpy_indexer.normalize_label`: its body is character-for-character the one
of `rpy_generator.normalize_label`. -/
def normalize_label (now : Nat) (label default_label : Option (List Char)) :
    List Char :=
  rpy_generator.normalize_label now label default_label

/-- `rpy_indexer.write_jump_menu_to_file`: its body is character-for-character
the one of `rpy_generator.write_jump_menu_to_script_file`. -/
def write_jump_menu_to_file (top_label : List Char)
    (labels : List (List Char)) (go_back_label : Option (List Char)) :
    List Char :=
  rpy_generator.write_jump_menu_to_script_file top_label labels go_back_label

/-- `rpy_indexer.batch_labels`: its body is character-for-character the one of
`rpy_generator.batch_labels`. -/
def batch_labels {α : Type} (labels : List α) (batch_size : Int) :
    List (List α) :=
  rpy_generator.batch_labels labels batch_size

/-- `rpy_indexer.write_labels_to_file_in_batches`, call level: the sequence of
`write_jump_menu_to_file` calls it performs, in order.  Unlike the generator's
`write_labels_to_script_file` it takes a `go_back_label` (default `None`),
passed to the single page in the small case and to the final top page. -/
def write_labels_to_file_in_batches_pages (root_label : List Char)
    (labels : List (List Char)) (go_back_label : Option (List Char))
    (label_page_size : Int) : List rpy_generator.MenuPage :=
  let P := if label_page_size < 1 then MAX_LABELS_PER_MENU
           else label_page_size
  if labels = [] ∨ (labels.length : Int) ≤ P then
    [⟨root_label, labels, go_back_label⟩]
  else
    let subs := rpy_generator.subPagesAux root_label 0 (batch_labels labels P)
    subs ++ [⟨root_label, subs.map rpy_generator.MenuPage.top_label,
              go_back_label⟩]

/-- `rpy_indexer.write_labels_to_file_in_batches`, text level: the exact text
it writes to `index_file`. -/
def write_labels_to_file_in_batches (root_label : List Char)
    (labels : List (List Char)) (go_back_label : Option (List Char))
    (label_page_size : Int) : List Char :=
  ((write_labels_to_file_in_batches_pages root_label labels go_back_label
      label_page_size).map
    (fun p =>
      write_jump_menu_to_file p.top_label p.labels p.go_back_label)).flatten

end rpy_indexer

/-! ### Helper lemmas about the batching loop -/

theorem rpy_generator.chunkFuel_nil {α : Type} (fuel n : Nat) :
    rpy_generator.chunkFuel (α := α) fuel n [] = [] := by
  cases fuel <;> rfl

theorem rpy_generator.chunkFuel_flatten {α : Type} (fuel n : Nat) (l : List α)
    (hf : l.length ≤ fuel) (hn : 1 ≤ n) :
    (rpy_generator.chunkFuel fuel n l).flatten = l := by
  induction fuel generalizing l with
  | zero =>
    cases l with
    | nil => simp [rpy_generator.chunkFuel]
    | cons a t => simp at hf
  | succ fuel ih =>
    cases l with
    | nil => simp [rpy_generator.chunkFuel]
    | cons a t =>
      simp only [rpy_generator.chunkFuel, List.flatten_cons]
      rw [ih]
      · exact List.take_append_drop n (a :: t)
      · rw [List.length_drop]
        simp only [List.length_cons] at hf ⊢
        omega

theorem rpy_generator.chunkFuel_length {α : Type} (fuel n : Nat) (l : List α)
    (hf : l.length ≤ fuel) (hn : 1 ≤ n) :
    (rpy_generator.chunkFuel fuel n l).length = (l.length + n - 1) / n := by
  induction fuel generalizing l with
  | zero =>
    cases l with
    | nil =>
      simp only [rpy_generator.chunkFuel, List.length_nil]
      rw [Nat.div_eq_of_lt (by omega)]
    | cons a t => simp at hf
  | succ fuel ih =>
    cases l with
    | nil =>
      simp only [rpy_generator.chunkFuel, List.length_nil]
      rw [Nat.div_eq_of_lt (by omega)]
    | cons a t =>
      simp only [rpy_generator.chunkFuel, List.length_cons]
      rw [ih ((a :: t).drop n) (by rw [List.length_drop]; simp only [List.length_cons] at hf ⊢; omega)]
      rw [List.length_drop]
      simp only [List.length_cons]
      rcases Nat.lt_or_ge n (t.length + 1) with hlt | hge
      · rw [show t.length + 1 - n + n - 1 = t.length + 1 - 1 by omega]
        rw [show t.length + 1 + n - 1 = (t.length + 1 - 1) + n by omega,
          Nat.add_div_right _ (by omega)]
      · rw [show t.length + 1 - n = 0 by omega]
        rw [Nat.div_eq_of_lt (by omega)]
        have h2 : (t.length + 1 + n - 1) / n = 1 := by
          rw [show t.length + 1 + n - 1 = (t.length + 1 - 1) + n by omega,
            Nat.add_div_right _ (by omega), Nat.div_eq_of_lt (by omega)]
        omega

theorem rpy_generator.chunkFuel_mem {α : Type} (fuel n : Nat) (l : List α)
    (hn : 1 ≤ n) :
    ∀ c ∈ rpy_generator.chunkFuel fuel n l, c ≠ [] ∧ c.length ≤ n := by
  induction fuel generalizing l with
  | zero =>
    intro c hc
    cases l <;> simp [rpy_generator.chunkFuel] at hc
  | succ fuel ih =>
    intro c hc
    cases l with
    | nil => simp [rpy_generator.chunkFuel] at hc
    | cons a t =>
      simp only [rpy_generator.chunkFuel, List.mem_cons] at hc
      rcases hc with rfl | hc
      · constructor
        · have : (List.take n (a :: t)).length = min n (t.length + 1) := by
            simp [List.length_take]
          intro hnil
          rw [hnil] at this
          simp at this
          omega
        · rw [List.length_take]
          omega
      · exact ih _ c hc

theorem rpy_generator.chunkFuel_get_length {α : Type} (fuel n : Nat) (l : List α) :
    ∀ i (h : i + 1 < (rpy_generator.chunkFuel fuel n l).length),
      ((rpy_generator.chunkFuel fuel n l).get ⟨i, Nat.lt_of_succ_lt h⟩).length = n := by
  induction fuel generalizing l with
  | zero =>
    intro i h
    cases l <;> simp [rpy_generator.chunkFuel] at h
  | succ fuel ih =>
    intro i h
    cases l with
    | nil => simp [rpy_generator.chunkFuel] at h
    | cons a t =>
      cases i with
      | zero =>
        simp only [rpy_generator.chunkFuel, List.length_cons, List.get_eq_getElem,
          List.getElem_cons_zero]
        have hrest : rpy_generator.chunkFuel fuel n ((a :: t).drop n) ≠ [] := by
          intro hnil
          simp only [rpy_generator.chunkFuel, List.length_cons] at h
          rw [hnil] at h
          simp at h
        have hdrop : (a :: t).drop n ≠ [] := by
          intro hnil
          rw [hnil, rpy_generator.chunkFuel_nil] at hrest
          exact hrest rfl
        have hlen : n < t.length + 1 := by
          by_contra hge
          apply hdrop
          apply List.drop_eq_nil_of_le
          simp only [List.length_cons]
          omega
        rw [List.length_take]
        simp only [List.length_cons]
        omega
      | succ i =>
        simp only [rpy_generator.chunkFuel, List.length_cons, List.get_eq_getElem,
          List.getElem_cons_succ] at h ⊢
        exact ih _ i (by omega)

theorem batch_labels_eq_chunkFuel (labels : List (List Char)) (P : Int)
    (hP : 1 ≤ P) (hne : labels ≠ []) :
    rpy_generator.batch_labels labels P =
      rpy_generator.chunkFuel labels.length P.toNat labels := by
  simp only [rpy_generator.batch_labels, if_neg (by omega : ¬P < 1)]
  rw [if_neg]
  simp [hne]

theorem subPagesAux_length (root : List Char) (i : Nat)
    (bs : List (List (List Char))) :
    (rpy_generator.subPagesAux root i bs).length = bs.length := by
  induction bs generalizing i with
  | nil => rfl
  | cons b bs ih => simp [rpy_generator.subPagesAux, ih]

theorem subPagesAux_map_labels (root : List Char) (i : Nat)
    (bs : List (List (List Char))) :
    (rpy_generator.subPagesAux root i bs).map
      rpy_generator.MenuPage.labels = bs := by
  induction bs generalizing i with
  | nil => rfl
  | cons b bs ih => simp [rpy_generator.subPagesAux, ih]

theorem subPagesAux_go_back (root : List Char) (i : Nat)
    (bs : List (List (List Char))) :
    ∀ p ∈ rpy_generator.subPagesAux root i bs,
      p.go_back_label = some root := by
  induction bs generalizing i with
  | nil => intro p hp; simp [rpy_generator.subPagesAux] at hp
  | cons b bs ih =>
    intro p hp
    simp only [rpy_generator.subPagesAux, List.mem_cons] at hp
    rcases hp with rfl | hp
    · rfl
    · exact ih _ p hp

theorem write_labels_in_batches_pages_eq (root : List Char)
    (labels : List (List Char)) (gb : Option (List Char)) (P : Int)
    (hP : 0 < P) :
    rpy_indexer.write_labels_to_file_in_batches_pages root labels gb P =
      if labels = [] ∨ (labels.length : Int) ≤ P then [⟨root, labels, gb⟩]
      else
        rpy_generator.subPagesAux root 0
            (rpy_generator.chunkFuel labels.length P.toNat labels) ++
          [⟨root,
            (rpy_generator.subPagesAux root 0
                (rpy_generator.chunkFuel labels.length P.toNat
                  labels)).map rpy_generator.MenuPage.top_label,
            gb⟩] := by
  simp only [rpy_indexer.write_labels_to_file_in_batches_pages,
    if_neg (show ¬P < 1 by omega)]
  split
  · rfl
  · rename_i h
    have hne : labels ≠ [] := by
      intro hnil
      exact h (Or.inl hnil)
    rw [rpy_indexer.batch_labels,
      batch_labels_eq_chunkFuel labels P (by omega) hne]

theorem gen_pages_eq_idx_pages (labels : List (List Char)) (root : List Char)
    (P : Int) :
    rpy_generator.write_labels_to_script_file_pages labels root P =
      rpy_indexer.write_labels_to_file_in_batches_pages root labels none P :=
  rfl

/-- C2: the conversion tool and the indexing tool use the same
menu-generation algorithm: for every label list, root label and page size,
`write_labels_to_script_file` of the generator and
`write_labels_to_file_in_batches` of the indexer with its go-back label left
at its default `None` emit identical text, and perform the identical sequence
of jump-menu calls. -/
theorem claim_C2 (labels : List (List Char)) (root : List Char) (P : Int) :
    rpy_generator.write_labels_to_script_file labels root P =
      rpy_indexer.write_labels_to_file_in_batches root labels none P ∧
    rpy_generator.write_labels_to_script_file_pages labels root P =
      rpy_indexer.write_labels_to_file_in_batches_pages root labels none P :=
  ⟨rfl, rfl⟩

/-- C6: on an empty label list with no go-back label the menu builder does
not fail: it performs exactly one jump-menu call, for the root label with no
labels and no back-link, and the text written is a single page holding only
the no-op placeholder `pass`. -/
theorem claim_C6 (root : List Char) (label_page_size : Int) :
    rpy_generator.write_labels_to_script_file_pages [] root label_page_size =
      [⟨root, [], none⟩] ∧
    rpy_indexer.write_labels_to_file_in_batches_pages root [] none
        label_page_size = [⟨root, [], none⟩] ∧
    rpy_generator.write_jump_menu_to_script_file root [] none =
      strL "label " ++ root ++ strL ":\n\n" ++ strL "    pass\n" ∧
    rpy_generator.write_labels_to_script_file [] root label_page_size =
      strL "label " ++ root ++ strL ":\n\n" ++ strL "    pass\n" ∧
    rpy_indexer.write_labels_to_file_in_batches root [] none
        label_page_size =
      strL "label " ++ root ++ strL ":\n\n" ++ strL "    pass\n" := by
  have hpages :
      rpy_indexer.write_labels_to_file_in_batches_pages root [] none
        label_page_size = [⟨root, [], none⟩] := by
    simp [rpy_indexer.write_labels_to_file_in_batches_pages]
  have hmenu : rpy_generator.write_jump_menu_to_script_file root [] none =
      strL "label " ++ root ++ strL ":\n\n" ++ strL "    pass\n" := by
    simp [rpy_generator.write_jump_menu_to_script_file, optTruthy]
  have htext :
      rpy_indexer.write_labels_to_file_in_batches root [] none
        label_page_size =
      strL "label " ++ root ++ strL ":\n\n" ++ strL "    pass\n" := by
    rw [rpy_indexer.write_labels_to_file_in_batches, hpages]
    simp only [List.map_cons, List.map_nil, List.flatten_cons,
      List.flatten_nil, List.append_nil]
    exact hmenu
  exact ⟨hpages, hpages, hmenu, htext, htext⟩

/-- C10: calling the jump-menu writer with an empty label list but a
non-empty go-back label emits a menu block whose only entry is the back
entry jumping to the go-back label: no `pass` placeholder and no label
entries appear in the text. -/
theorem claim_C10 (top g : List Char) (h : g ≠ []) :
    rpy_generator.write_jump_menu_to_script_file top [] (some g) =
      strL "label " ++ top ++ strL ":\n\n" ++
        (strL "    menu:\n" ++
          (strL "        \"< BACK\":\n            jump " ++ g ++
            strL "\n\n")) ∧
    rpy_indexer.write_jump_menu_to_file top [] (some g) =
      strL "label " ++ top ++ strL ":\n\n" ++
        (strL "    menu:\n" ++
          (strL "        \"< BACK\":\n            jump " ++ g ++
            strL "\n\n")) := by
  have htext : rpy_generator.write_jump_menu_to_script_file top [] (some g) =
      strL "label " ++ top ++ strL ":\n\n" ++
        (strL "    menu:\n" ++
          (strL "        \"< BACK\":\n            jump " ++ g ++
            strL "\n\n")) := by
    simp [rpy_generator.write_jump_menu_to_script_file, optTruthy, h]
  exact ⟨htext, htext⟩

/-- Witness for C10 at a concrete go-back label. -/
theorem claim_C10_witness :
    rpy_generator.write_jump_menu_to_script_file (strL "top") []
        (some (strL "back")) =
      strL "label " ++ strL "top" ++ strL ":\n\n" ++
        (strL "    menu:\n" ++
          (strL "        \"< BACK\":\n            jump " ++ strL "back" ++
            strL "\n\n")) ∧
    rpy_indexer.write_jump_menu_to_file (strL "top") []
        (some (strL "back")) =
      strL "label " ++ strL "top" ++ strL ":\n\n" ++
        (strL "    menu:\n" ++
          (strL "        \"< BACK\":\n            jump " ++ strL "back" ++
            strL "\n\n")) :=
  claim_C10 (strL "top") (strL "back") (by decide)

/-- C1: for a label list of length `N` and page size `P > 0`: if `N ≤ P` both
menu builders emit exactly one page; if `N > P` they emit `⌈N/P⌉` sub-pages
plus one top page, the sub-pages' label lists concatenate back to the input
list (contiguous chunks in input order, so every original label lands in
exactly one sub-page), every sub-page holds at most `P` labels, and every
sub-page but the last holds exactly `P`. -/
theorem claim_C1 (labels : List (List Char)) (root : List Char) (P : Int)
    (hP : 0 < P) :
    ((labels.length : Int) ≤ P →
      rpy_generator.write_labels_to_script_file_pages labels root P =
          [⟨root, labels, none⟩] ∧
      rpy_indexer.write_labels_to_file_in_batches_pages root labels none P =
          [⟨root, labels, none⟩]) ∧
    (P < (labels.length : Int) →
      (rpy_generator.write_labels_to_script_file_pages labels root
            P).length = (labels.length + P.toNat - 1) / P.toNat + 1 ∧
      (rpy_indexer.write_labels_to_file_in_batches_pages root labels none
            P).length = (labels.length + P.toNat - 1) / P.toNat + 1 ∧
      ((rpy_generator.write_labels_to_script_file_pages labels root
            P).dropLast.map rpy_generator.MenuPage.labels).flatten =
          labels ∧
      (∀ pg ∈ (rpy_generator.write_labels_to_script_file_pages labels root
            P).dropLast, pg.labels ≠ [] ∧ pg.labels.length ≤ P.toNat) ∧
      (∀ i (h : i + 1 < (rpy_generator.write_labels_to_script_file_pages
            labels root P).dropLast.length),
        ((rpy_generator.write_labels_to_script_file_pages labels root
            P).dropLast.get ⟨i, Nat.lt_of_succ_lt h⟩).labels.length =
          P.toNat)) := by
  constructor
  · intro hle
    have hsmall :
        rpy_indexer.write_labels_to_file_in_batches_pages root labels none
          P = [⟨root, labels, none⟩] := by
      rw [write_labels_in_batches_pages_eq root labels none P hP,
        if_pos (Or.inr hle)]
    exact ⟨by rw [gen_pages_eq_idx_pages]; exact hsmall, hsmall⟩
  · intro hgt
    have hne : labels ≠ [] := by
      intro hnil
      rw [hnil] at hgt
      simp at hgt
      omega
    have hcond : ¬(labels = [] ∨ (labels.length : Int) ≤ P) := by
      push_neg
      exact ⟨hne, hgt⟩
    have hbig :
        rpy_indexer.write_labels_to_file_in_batches_pages root labels none
          P =
        rpy_generator.subPagesAux root 0
            (rpy_generator.chunkFuel labels.length P.toNat labels) ++
          [⟨root,
            (rpy_generator.subPagesAux root 0
                (rpy_generator.chunkFuel labels.length P.toNat
                  labels)).map rpy_generator.MenuPage.top_label,
            none⟩] := by
      rw [write_labels_in_batches_pages_eq root labels none P hP,
        if_neg hcond]
    have hgen := (gen_pages_eq_idx_pages labels root P).trans hbig
    have hn1 : 1 ≤ P.toNat := by omega
    have hchlen :
        (rpy_generator.chunkFuel labels.length P.toNat labels).length =
          (labels.length + P.toNat - 1) / P.toNat :=
      rpy_generator.chunkFuel_length labels.length P.toNat labels
        (le_refl _) hn1
    have hlen :
        (rpy_indexer.write_labels_to_file_in_batches_pages root labels none
            P).length = (labels.length + P.toNat - 1) / P.toNat + 1 := by
      rw [hbig, List.length_append, subPagesAux_length, hchlen]
      rfl
    have hdrop :
        (rpy_generator.write_labels_to_script_file_pages labels root
            P).dropLast =
          rpy_generator.subPagesAux root 0
            (rpy_generator.chunkFuel labels.length P.toNat labels) := by
      rw [hgen, List.dropLast_concat]
    refine ⟨by rw [gen_pages_eq_idx_pages]; exact hlen, hlen, ?_, ?_, ?_⟩
    · rw [hdrop, subPagesAux_map_labels]
      exact rpy_generator.chunkFuel_flatten labels.length P.toNat labels
        (le_refl _) hn1
    · intro pg hpg
      rw [hdrop] at hpg
      have hmem : pg.labels ∈
          rpy_generator.chunkFuel labels.length P.toNat labels := by
        rw [← subPagesAux_map_labels root 0
          (rpy_generator.chunkFuel labels.length P.toNat labels)]
        exact List.mem_map_of_mem _ hpg
      exact rpy_generator.chunkFuel_mem labels.length P.toNat labels hn1
        pg.labels hmem
    · intro i h
      have hmapget :
          ∀ (L : List rpy_generator.MenuPage) (j : Nat)
            (hj : j < L.length) (hj2 : j < (L.map
              rpy_generator.MenuPage.labels).length),
            (L.get ⟨j, hj⟩).labels =
              (L.map rpy_generator.MenuPage.labels).get ⟨j, hj2⟩ := by
        intro L j hj hj2
        simp [List.get_eq_getElem, List.getElem_map]
      have hsub : i + 1 < (rpy_generator.subPagesAux root 0
          (rpy_generator.chunkFuel labels.length P.toNat
            labels)).length := by
        rw [← hdrop]
        exact h
      have hch : i + 1 < (rpy_generator.chunkFuel labels.length P.toNat
          labels).length := by
        rw [← subPagesAux_length root 0]
        exact hsub
      rw [List.get_of_eq hdrop ⟨i, Nat.lt_of_succ_lt h⟩]
      rw [hmapget _ i (Nat.lt_of_succ_lt hsub)
        (by rw [List.length_map]; exact Nat.lt_of_succ_lt hsub)]
      rw [List.get_of_eq (subPagesAux_map_labels root 0
        (rpy_generator.chunkFuel labels.length P.toNat labels))
        ⟨i, by rw [List.length_map]; exact Nat.lt_of_succ_lt hsub⟩]
      exact rpy_generator.chunkFuel_get_length labels.length P.toNat labels
        i hch

/-- Witness for C1 at three labels and page size two. -/
theorem claim_C1_witness :
    (0 : Int) < 2 ∧
    ((([strL "a", strL "b", strL "c"].length : Int) ≤ 2 →
      rpy_generator.write_labels_to_script_file_pages
          [strL "a", strL "b", strL "c"] (strL "r") 2 =
        [⟨strL "r", [strL "a", strL "b", strL "c"], none⟩] ∧
      rpy_indexer.write_labels_to_file_in_batches_pages (strL "r")
          [strL "a", strL "b", strL "c"] none 2 =
        [⟨strL "r", [strL "a", strL "b", strL "c"], none⟩]) ∧
    ((2 : Int) < ([strL "a", strL "b", strL "c"].length : Int) →
      (rpy_generator.write_labels_to_script_file_pages
          [strL "a", strL "b", strL "c"] (strL "r") 2).length =
        ([strL "a", strL "b", strL "c"].length + (2 : Int).toNat - 1) /
          (2 : Int).toNat + 1 ∧
      (rpy_indexer.write_labels_to_file_in_batches_pages (strL "r")
          [strL "a", strL "b", strL "c"] none 2).length =
        ([strL "a", strL "b", strL "c"].length + (2 : Int).toNat - 1) /
          (2 : Int).toNat + 1 ∧
      ((rpy_generator.write_labels_to_script_file_pages
          [strL "a", strL "b", strL "c"] (strL "r")
          2).dropLast.map rpy_generator.MenuPage.labels).flatten =
        [strL "a", strL "b", strL "c"] ∧
      (∀ pg ∈ (rpy_generator.write_labels_to_script_file_pages
          [strL "a", strL "b", strL "c"] (strL "r") 2).dropLast,
        pg.labels ≠ [] ∧ pg.labels.length ≤ (2 : Int).toNat) ∧
      (∀ i (h : i + 1 < (rpy_generator.write_labels_to_script_file_pages
          [strL "a", strL "b", strL "c"] (strL "r") 2).dropLast.length),
        ((rpy_generator.write_labels_to_script_file_pages
            [strL "a", strL "b", strL "c"] (strL "r")
            2).dropLast.get ⟨i, Nat.lt_of_succ_lt h⟩).labels.length =
          (2 : Int).toNat))) :=
  ⟨by decide,
    claim_C1 [strL "a", strL "b", strL "c"] (strL "r") 2 (by decide)⟩

/-- C7: on 45 labels with page size 20, the menu builder emits three
sub-pages holding 20, 20 and 5 labels, each of the first two (in fact all
three) back-linking to the top label, plus one top page whose three entries
are the synthesized sub-page labels. -/
theorem claim_C7 :
    (rpy_generator.write_labels_to_script_file_pages
        ((List.range 45).map (fun i => 'l' :: natToDec i)) (strL "root")
        20).length = 4 ∧
    (rpy_generator.write_labels_to_script_file_pages
        ((List.range 45).map (fun i => 'l' :: natToDec i)) (strL "root")
        20).map (fun p => p.labels.length) = [20, 20, 5, 3] ∧
    (rpy_generator.write_labels_to_script_file_pages
        ((List.range 45).map (fun i => 'l' :: natToDec i)) (strL "root")
        20).map rpy_generator.MenuPage.go_back_label =
      [some (strL "root"), some (strL "root"), some (strL "root"), none] ∧
    (rpy_generator.write_labels_to_script_file_pages
        ((List.range 45).map (fun i => 'l' :: natToDec i)) (strL "root")
        20).map rpy_generator.MenuPage.top_label =
      [strL "root_0", strL "root_1", strL "root_2", strL "root"] ∧
    (rpy_generator.write_labels_to_script_file_pages
        ((List.range 45).map (fun i => 'l' :: natToDec i)) (strL "root")
        20).getLast? =
      some ⟨strL "root", [strL "root_0", strL "root_1", strL "root_2"],
        none⟩ := by
  decide

/-! ### Helper lemmas about characters, stripping and decimal rendering -/

theorem mem_of_getLast?_eq_some {α : Type} {l : List α} {a : α}
    (h : l.getLast? = some a) : a ∈ l := by
  have h2 : l.reverse.head? = some a := by
    rw [List.head?_reverse]
    exact h
  exact List.mem_reverse.mp (List.mem_of_mem_head? (Option.mem_def.mpr h2))

theorem head_dropWhile_false (p : Char → Bool) (l : List Char) {c : Char}
    (h : (l.dropWhile p).head? = some c) : p c = false := by
  have hnot := List.head?_dropWhile_not p l
  rw [h] at hnot
  exact hnot

theorem getLast?_dropWhile (p : Char → Bool) (l : List Char)
    (h : l.dropWhile p ≠ []) : (l.dropWhile p).getLast? = l.getLast? := by
  induction l with
  | nil => simp at h
  | cons a t ih =>
    by_cases hp : p a
    · rw [List.dropWhile_cons, if_pos hp] at h ⊢
      have ht : t ≠ [] := by
        intro hnil
        rw [hnil] at h
        simp at h
      rw [ih h]
      rw [show a :: t = [a] ++ t from rfl,
        List.getLast?_append_of_ne_nil [a] ht]
    · rw [List.dropWhile_cons, if_neg hp]

theorem pyStrip_getLast?_not_space (l : List Char) {c : Char}
    (h : (pyStrip l).getLast? = some c) : pyIsSpace c = false := by
  unfold pyStrip pyRStrip at h
  rw [List.getLast?_reverse] at h
  exact head_dropWhile_false _ _ h

theorem pyStrip_head?_not_space (l : List Char) {c : Char}
    (h : (pyStrip l).head? = some c) : pyIsSpace c = false := by
  unfold pyStrip pyRStrip at h
  rw [List.head?_reverse] at h
  have hz : (pyLStrip l).reverse.dropWhile pyIsSpace ≠ [] := by
    intro hnil
    rw [hnil] at h
    simp at h
  rw [getLast?_dropWhile _ _ hz, List.getLast?_reverse] at h
  exact head_dropWhile_false _ _ h

theorem pyStrip_eq_self (l : List Char)
    (h1 : ∀ c, l.head? = some c → pyIsSpace c = false)
    (h2 : ∀ c, l.getLast? = some c → pyIsSpace c = false) :
    pyStrip l = l := by
  cases l with
  | nil => rfl
  | cons a t =>
    have ha : pyIsSpace a = false := h1 a rfl
    have hstep : pyLStrip (a :: t) = a :: t := by
      unfold pyLStrip
      rw [List.dropWhile_cons, if_neg (by simp [ha])]
    have hrev : (a :: t).reverse.dropWhile pyIsSpace = (a :: t).reverse := by
      cases hrv : (a :: t).reverse with
      | nil => simp at hrv
      | cons b s =>
        have hb : (a :: t).getLast? = some b := by
          rw [← List.head?_reverse, hrv]
          rfl
        rw [List.dropWhile_cons, if_neg (by simp [h2 b hb])]
    unfold pyStrip pyRStrip
    rw [hstep, hrev, List.reverse_reverse]

theorem pyReplaceChar_eq_self (a b : Char) (l : List Char) (h : a ∉ l) :
    pyReplaceChar a b l = l := by
  unfold pyReplaceChar
  induction l with
  | nil => rfl
  | cons c t ih =>
    simp only [List.map_cons]
    rw [if_neg (fun hc => h (by rw [← hc]; exact List.mem_cons_self c t)),
      ih (fun hm => h (List.mem_cons_of_mem c hm))]

theorem clean_chars (l : List Char) :
    ∀ c ∈ pyReplaceChar ':' '_' (pyReplaceChar ' ' '_' l),
      c ≠ ' ' ∧ c ≠ ':' := by
  intro c hc
  simp only [pyReplaceChar, List.map_map, List.mem_map,
    Function.comp] at hc
  obtain ⟨x, _, rfl⟩ := hc
  by_cases h1 : x = ' '
  · subst h1
    exact ⟨by decide, by decide⟩
  · rw [if_neg h1]
    by_cases h2 : x = ':'
    · subst h2
      exact ⟨by decide, by decide⟩
    · rw [if_neg h2]
      exact ⟨h1, h2⟩

theorem repl_not_space (x : Char) (h : pyIsSpace x = false) :
    pyIsSpace (if (if x = ' ' then '_' else x) = ':' then '_'
               else if x = ' ' then '_' else x) = false := by
  have h1 : x ≠ ' ' := by
    intro hx
    subst hx
    simp [pyIsSpace] at h
  rw [if_neg h1]
  by_cases h2 : x = ':'
  · subst h2
    decide
  · rw [if_neg h2]
    exact h

theorem digitChar_range (d : Nat) (h : d < 10) :
    48 ≤ (digitChar d).toNat ∧ (digitChar d).toNat ≤ 57 := by
  interval_cases d <;> exact ⟨by decide, by decide⟩

theorem natToDecFuel_digits (fuel : Nat) :
    ∀ n, n < fuel → ∀ c ∈ natToDecFuel fuel n,
      48 ≤ c.toNat ∧ c.toNat ≤ 57 := by
  induction fuel with
  | zero => intro n h; exact absurd h (Nat.not_lt_zero n)
  | succ fuel ih =>
    intro n h c hc
    simp only [natToDecFuel] at hc
    split at hc
    · rename_i h10
      simp only [List.mem_singleton] at hc
      subst hc
      exact digitChar_range n h10
    · rename_i h10
      rw [List.mem_append] at hc
      rcases hc with hc | hc
      · exact ih (n / 10) (by omega) c hc
      · simp only [List.mem_singleton] at hc
        subst hc
        exact digitChar_range (n % 10) (by omega)

theorem natToDec_digits (n : Nat) :
    ∀ c ∈ natToDec n, 48 ≤ c.toNat ∧ c.toNat ≤ 57 :=
  natToDecFuel_digits (n + 1) n (Nat.lt_succ_self n)

theorem natToDec_ne_nil (n : Nat) : natToDec n ≠ [] := by
  unfold natToDec
  simp only [natToDecFuel]
  split <;> simp

theorem digit_char_facts (c : Char) (h1 : 48 ≤ c.toNat)
    (h2 : c.toNat ≤ 57) :
    pyIsSpace c = false ∧ c ≠ ' ' ∧ c ≠ ':' := by
  have key : ∀ d : Char, d.toNat < 48 ∨ 57 < d.toNat → c ≠ d := by
    intro d hd hcd
    rw [hcd] at h1 h2
    omega
  refine ⟨?_, key ' ' (by decide), key ':' (by decide)⟩
  simp [pyIsSpace, key ' ' (by decide), key '\t' (by decide),
    key '\n' (by decide), key '\r' (by decide), key '\x0b' (by decide),
    key '\x0c' (by decide)]

theorem natToDec_chars (n : Nat) :
    ∀ c ∈ natToDec n, pyIsSpace c = false ∧ c ≠ ' ' ∧ c ≠ ':' :=
  fun c hc =>
    digit_char_facts c (natToDec_digits n c hc).1 (natToDec_digits n c hc).2

/-! ### Helper lemmas about `normalize_label` -/

theorem label_prefix_props (x : List Char) (hx : x ≠ [])
    (hchars : ∀ c ∈ x, c ≠ ' ' ∧ c ≠ ':')
    (hlast : ∀ c, x.getLast? = some c → pyIsSpace c = false) :
    LABEL ++ '_' :: x ≠ [] ∧
    (∀ c ∈ LABEL ++ '_' :: x, c ≠ ' ' ∧ c ≠ ':') ∧
    headIsDigit (LABEL ++ '_' :: x) = false ∧
    pyStrip (LABEL ++ '_' :: x) = LABEL ++ '_' :: x := by
  refine ⟨by simp [LABEL, strL], ?_, rfl, ?_⟩
  · intro c hc
    rw [List.mem_append] at hc
    rcases hc with hc | hc
    · have hall : ∀ c ∈ LABEL, c ≠ ' ' ∧ c ≠ ':' := by decide
      exact hall c hc
    · rcases List.mem_cons.mp hc with rfl | hc
      · exact ⟨by decide, by decide⟩
      · exact hchars c hc
  · apply pyStrip_eq_self
    · intro c hc
      have hhead : (LABEL ++ '_' :: x).head? = some 'l' := rfl
      rw [hhead] at hc
      injection hc with hc2
      rw [← hc2]
      decide
    · intro c hc
      rw [List.getLast?_append_of_ne_nil _ (by simp),
        show ('_' :: x) = ['_'] ++ x from rfl,
        List.getLast?_append_of_ne_nil ['_'] hx] at hc
      exact hlast c hc

theorem normalize_label_props (now : Nat) (lab dflt : Option (List Char))
    (h : rpy_generator.effLabel lab ≠ [] ∨ optTruthy dflt = false) :
    rpy_generator.normalize_label now lab dflt ≠ [] ∧
    (∀ c ∈ rpy_generator.normalize_label now lab dflt,
      c ≠ ' ' ∧ c ≠ ':') ∧
    headIsDigit (rpy_generator.normalize_label now lab dflt) = false ∧
    pyStrip (rpy_generator.normalize_label now lab dflt) =
      rpy_generator.normalize_label now lab dflt := by
  by_cases he : rpy_generator.effLabel lab = []
  · have hd : optTruthy dflt = false := by
      rcases h with h | h
      · exact absurd he h
      · exact h
    have hsynth : rpy_generator.normalize_label now lab dflt =
        LABEL ++ '_' :: natToDec now := by
      cases dflt with
      | none => simp [rpy_generator.normalize_label, he]
      | some d =>
        have hd2 : d = [] := by
          simpa [optTruthy] using hd
        subst hd2
        simp [rpy_generator.normalize_label, he]
    rw [hsynth]
    exact label_prefix_props (natToDec now) (natToDec_ne_nil now)
      (fun c hc => (natToDec_chars now c hc).2)
      (fun c hc =>
        (natToDec_chars now c (mem_of_getLast?_eq_some hc)).1)
  · obtain ⟨l0, rfl, h0, heq⟩ :
        ∃ l0, lab = some l0 ∧ l0 ≠ [] ∧
          rpy_generator.effLabel lab = pyStrip l0 := by
      cases lab with
      | none => exact absurd rfl he
      | some l0 =>
        by_cases h0 : l0 = []
        · subst h0
          simp [rpy_generator.effLabel] at he
        · exact ⟨l0, rfl, h0, by simp [rpy_generator.effLabel, h0]⟩
    have hval : rpy_generator.normalize_label now (some l0) dflt =
        (if headIsDigit (pyReplaceChar ':' '_'
            (pyReplaceChar ' ' '_' (pyStrip l0))) then
          LABEL ++ '_' :: pyReplaceChar ':' '_'
            (pyReplaceChar ' ' '_' (pyStrip l0))
        else pyReplaceChar ':' '_' (pyReplaceChar ' ' '_' (pyStrip l0))) := by
      rw [rpy_generator.normalize_label.eq_def]
      simp only [heq] at he ⊢
      rw [if_neg he]
    have hr0ne : pyReplaceChar ':' '_'
        (pyReplaceChar ' ' '_' (pyStrip l0)) ≠ [] := by
      rw [heq] at he
      simp only [pyReplaceChar, ne_eq, List.map_eq_nil_iff]
      exact he
    have hr0chars := clean_chars (pyStrip l0)
    have hr0head : ∀ c,
        (pyReplaceChar ':' '_'
          (pyReplaceChar ' ' '_' (pyStrip l0))).head? = some c →
        pyIsSpace c = false := by
      intro c hc
      simp only [pyReplaceChar, List.map_map, List.head?_map,
        Function.comp] at hc
      cases hh : (pyStrip l0).head? with
      | none => rw [hh] at hc; simp at hc
      | some x =>
        rw [hh] at hc
        simp only [Option.map_some'] at hc
        injection hc with hc2
        rw [← hc2]
        exact repl_not_space x (pyStrip_head?_not_space l0 hh)
    have hr0last : ∀ c,
        (pyReplaceChar ':' '_'
          (pyReplaceChar ' ' '_' (pyStrip l0))).getLast? = some c →
        pyIsSpace c = false := by
      intro c hc
      simp only [pyReplaceChar, List.map_map, List.getLast?_map,
        Function.comp] at hc
      cases hh : (pyStrip l0).getLast? with
      | none => rw [hh] at hc; simp at hc
      | some x =>
        rw [hh] at hc
        simp only [Option.map_some'] at hc
        injection hc with hc2
        rw [← hc2]
        exact repl_not_space x (pyStrip_getLast?_not_space l0 hh)
    rw [hval]
    by_cases hdig : headIsDigit (pyReplaceChar ':' '_'
        (pyReplaceChar ' ' '_' (pyStrip l0))) = true
    · rw [if_pos hdig]
      exact label_prefix_props _ hr0ne hr0chars hr0last
    · rw [if_neg hdig]
      refine ⟨hr0ne, hr0chars, by simpa using hdig, ?_⟩
      exact pyStrip_eq_self _ hr0head hr0last

theorem normalize_label_fixed (now2 : Nat) (out : List Char)
    (d2 : Option (List Char)) (h1 : out ≠ []) (h2 : ' ' ∉ out)
    (h3 : ':' ∉ out) (h4 : headIsDigit out = false)
    (h5 : pyStrip out = out) :
    rpy_generator.normalize_label now2 (some out) d2 = out := by
  have he : rpy_generator.effLabel (some out) = out := by
    simp [rpy_generator.effLabel, h1, h5]
  rw [rpy_generator.normalize_label.eq_def]
  simp only [he]
  rw [if_neg h1, pyReplaceChar_eq_self ' ' '_' out h2,
    pyReplaceChar_eq_self ':' '_' out h3, if_neg (by simp [h4])]

/-- C3 (amended): `normalize_label` always returns a non-empty string; it
returns the (non-empty) default verbatim when the text is empty after
trimming, and a timestamp-synthesized label when the text is empty and no
usable default exists; the guarantee that the result has no spaces, no
colons and no leading digit holds whenever the result is not the verbatim
caller-supplied default (the default itself is returned unchanged even when
it violates those properties). -/
theorem claim_C3 (now : Nat) (lab dflt : Option (List Char)) :
    rpy_generator.normalize_label now lab dflt ≠ [] ∧
    (∀ d, dflt = some d → d ≠ [] → rpy_generator.effLabel lab = [] →
      rpy_generator.normalize_label now lab dflt = d) ∧
    (rpy_generator.effLabel lab = [] → optTruthy dflt = false →
      rpy_generator.normalize_label now lab dflt =
        LABEL ++ '_' :: natToDec now) ∧
    ((rpy_generator.effLabel lab ≠ [] ∨ optTruthy dflt = false) →
      (' ' ∉ rpy_generator.normalize_label now lab dflt ∧
       ':' ∉ rpy_generator.normalize_label now lab dflt ∧
       headIsDigit (rpy_generator.normalize_label now lab dflt) = false)) := by
  have hdefault : ∀ d, dflt = some d → d ≠ [] →
      rpy_generator.effLabel lab = [] →
      rpy_generator.normalize_label now lab dflt = d := by
    intro d hd hdne he
    subst hd
    rw [rpy_generator.normalize_label.eq_def]
    simp [he, hdne]
  have hsynth : rpy_generator.effLabel lab = [] → optTruthy dflt = false →
      rpy_generator.normalize_label now lab dflt =
        LABEL ++ '_' :: natToDec now := by
    intro he hdf
    cases dflt with
    | none =>
      rw [rpy_generator.normalize_label.eq_def]
      simp [he]
    | some d =>
      have hd2 : d = [] := by
        simpa [optTruthy] using hdf
      subst hd2
      rw [rpy_generator.normalize_label.eq_def]
      simp [he]
  refine ⟨?_, hdefault, hsynth, ?_⟩
  · by_cases he : rpy_generator.effLabel lab = []
    · cases dflt with
      | none =>
        have := (normalize_label_props now lab none (Or.inr rfl)).1
        exact this
      | some d =>
        by_cases hd : d = []
        · subst hd
          exact (normalize_label_props now lab (some [])
            (Or.inr (by simp [optTruthy]))).1
        · rw [hdefault d rfl hd he]
          exact hd
    · exact (normalize_label_props now lab dflt (Or.inl he)).1
  · intro h
    obtain ⟨-, hchars, hdig, -⟩ := normalize_label_props now lab dflt h
    exact ⟨fun hm => (hchars ' ' hm).1 rfl, fun hm => (hchars ':' hm).2 rfl,
      hdig⟩

/-- Witness for C3: a text with spaces, a colon and a leading digit is
normalized into a label with none of those. -/
theorem claim_C3_witness :
    ' ' ∉ rpy_generator.normalize_label 1 (some (strL " 9 x: ")) none ∧
    ':' ∉ rpy_generator.normalize_label 1 (some (strL " 9 x: ")) none ∧
    headIsDigit (rpy_generator.normalize_label 1 (some (strL " 9 x: "))
      none) = false :=
  (claim_C3 1 (some (strL " 9 x: ")) none).2.2.2 (Or.inl (by decide))

/-- C3 counterexample: with absent text and default `":"` the function
returns `":"` verbatim, so the returned string contains the delimiter
character, refuting the unconditional no-spaces/no-colons/no-leading-digit
clause of the claim. -/
theorem claim_C3_cex :
    rpy_generator.normalize_label 0 none (some [':']) = [':'] ∧
    ':' ∈ rpy_generator.normalize_label 0 none (some [':']) := by
  decide

/-- C4 (amended): normalizing an already-normalized label (non-empty, no
spaces, no colons, not digit-initial, no surrounding whitespace) returns it
unchanged, and `normalize_label` applied to its own output returns that
output whenever the output did not come from the verbatim-default branch
(for instance whenever no default was supplied); this holds for the
generator's and the indexer's identical copies of the function. -/
theorem claim_C4 (now now2 : Nat) (out : List Char)
    (lab dflt2 : Option (List Char))
    (h : out = rpy_generator.normalize_label now lab none ∨
      (out ≠ [] ∧ ' ' ∉ out ∧ ':' ∉ out ∧ headIsDigit out = false ∧
        pyStrip out = out)) :
    rpy_generator.normalize_label now2 (some out) dflt2 = out ∧
    rpy_indexer.normalize_label now2 (some out) dflt2 = out := by
  have hprops : out ≠ [] ∧ ' ' ∉ out ∧ ':' ∉ out ∧
      headIsDigit out = false ∧ pyStrip out = out := by
    rcases h with h | h
    · obtain ⟨h1, hchars, h4, h5⟩ :=
        normalize_label_props now lab none (Or.inr rfl)
      subst h
      exact ⟨h1, fun hm => (hchars ' ' hm).1 rfl,
        fun hm => (hchars ':' hm).2 rfl, h4, h5⟩
    · exact h
  obtain ⟨h1, h2, h3, h4, h5⟩ := hprops
  have hfix := normalize_label_fixed now2 out dflt2 h1 h2 h3 h4 h5
  exact ⟨hfix, hfix⟩

/-- Witness for C4 at an already-normalized label. -/
theorem claim_C4_witness :
    rpy_generator.normalize_label 9 (some (strL "ok_2")) none =
      strL "ok_2" ∧
    rpy_indexer.normalize_label 9 (some (strL "ok_2")) none =
      strL "ok_2" :=
  claim_C4 0 9 (strL "ok_2") none none
    (Or.inr (by refine ⟨by decide, by decide, by decide, by decide, by decide⟩))

/-- C4 counterexample: with absent text and the default `" a b "` the
function returns `" a b "`, and normalizing that output yields `"a_b"`, not
the output itself — so the for-every-input idempotence clause of the claim
fails. -/
theorem claim_C4_cex :
    rpy_generator.normalize_label 0
        (some (rpy_generator.normalize_label 0 none (some (strL " a b "))))
        none ≠
      rpy_generator.normalize_label 0 none (some (strL " a b ")) := by
  decide

/-- C5: the speaker-line parser behaves as the four spec examples require:
`"Alice: Hello"` gives speaker `Alice` and phrase `Hello`; `"Alice:"` gives
speaker `Alice` and the ellipsis placeholder; `":Hello"` gives no speaker
and phrase `Hello`; the empty line and whitespace-only lines give no
record. -/
theorem claim_C5 :
    rpy_generator.parse_text_line (strL "Alice: Hello") =
      some ⟨some (strL "Alice"), strL "Hello"⟩ ∧
    rpy_generator.parse_text_line (strL "Alice:") =
      some ⟨some (strL "Alice"), ELLIPSIS⟩ ∧
    rpy_generator.parse_text_line (strL ":Hello") =
      some ⟨none, strL "Hello"⟩ ∧
    rpy_generator.parse_text_line (strL "") = none ∧
    rpy_generator.parse_text_line (strL "   ") = none ∧
    rpy_generator.parse_text_line (strL " \t ") = none := by
  decide

/-- C9: whenever the parser returns a record, its phrase is non-empty and
its speaker name, when present, is non-empty — so no record has both fields
empty. -/
theorem claim_C9 (line : List Char) (r : rpy_generator.ScriptLine)
    (h : rpy_generator.parse_text_line line = some r) :
    r.phrase ≠ [] ∧ (∀ s, r.character_name = some s → s ≠ []) := by
  rw [rpy_generator.parse_text_line.eq_def] at h
  dsimp only at h
  split at h
  · exact absurd h (by simp)
  · split at h
    · exact absurd h (by simp)
    · split at h
      · split at h
        · exact absurd h (by simp)
        · rename_i hne
          injection h with h
          subst h
          refine ⟨hne, ?_⟩
          intro s hs
          simp at hs
      · split at h
        · injection h with h
          subst h
          refine ⟨show ELLIPSIS ≠ [] by decide, ?_⟩
          intro s hs
          dsimp only at hs
          split at hs
          · simp at hs
          · rename_i hcn
            injection hs with hs
            subst hs
            exact hcn
        · split at h
          · exact absurd h (by simp)
          · injection h with h
            subst h
            constructor
            · dsimp only
              split
              · decide
              · rename_i hp
                exact hp
            · intro s hs
              dsimp only at hs
              split at hs
              · simp at hs
              · rename_i hcn
                injection hs with hs
                subst hs
                exact hcn

/-- Witness for C9 at a concrete parsed line. -/
theorem claim_C9_witness :
    (⟨some (strL "Alice"), strL "Hello"⟩ :
        rpy_generator.ScriptLine).phrase ≠ [] ∧
    (∀ s, (⟨some (strL "Alice"), strL "Hello"⟩ :
        rpy_generator.ScriptLine).character_name = some s → s ≠ []) :=
  claim_C9 (strL "Alice: Hello") ⟨some (strL "Alice"), strL "Hello"⟩
    (by decide)

/-! ### Helper lemmas about the character map -/

theorem lookupName_append_left (cm cm2 : rpy_generator.CharMap)
    (k v : List Char) (h : rpy_generator.lookupName cm k = some v) :
    rpy_generator.lookupName (cm ++ cm2) k = some v := by
  induction cm with
  | nil => simp [rpy_generator.lookupName] at h
  | cons e t ih =>
    obtain ⟨ek, ev⟩ := e
    by_cases hek : ek = k
    · simp only [rpy_generator.lookupName, if_pos hek] at h
      simp only [List.cons_append, rpy_generator.lookupName, if_pos hek]
      exact h
    · simp only [rpy_generator.lookupName, if_neg hek] at h
      simp only [List.cons_append, rpy_generator.lookupName, if_neg hek]
      exact ih h

theorem lookupName_none_iff (cm : rpy_generator.CharMap) (k : List Char) :
    rpy_generator.lookupName cm k = none ↔ k ∉ cm.map Prod.fst := by
  induction cm with
  | nil => simp [rpy_generator.lookupName]
  | cons e t ih =>
    obtain ⟨ek, ev⟩ := e
    by_cases hek : ek = k
    · subst hek
      simp [rpy_generator.lookupName]
    · simp only [rpy_generator.lookupName, if_neg hek, List.map_cons,
        List.mem_cons]
      rw [ih]
      constructor
      · intro hn hm
        rcases hm with hm | hm
        · exact hek hm.symm
        · exact hn hm
      · intro hn
        exact fun hm => hn (Or.inr hm)

theorem lookupName_append_self (cm : rpy_generator.CharMap)
    (k v : List Char) (h : rpy_generator.lookupName cm k = none) :
    rpy_generator.lookupName (cm ++ [(k, v)]) k = some v := by
  induction cm with
  | nil => simp [rpy_generator.lookupName]
  | cons e t ih =>
    obtain ⟨ek, ev⟩ := e
    by_cases hek : ek = k
    · simp only [rpy_generator.lookupName, if_pos hek] at h
      exact absurd h (by simp)
    · simp only [rpy_generator.lookupName, if_neg hek] at h
      simp only [List.cons_append, rpy_generator.lookupName, if_neg hek]
      exact ih h

theorem firstSeenNew_congr (k1 k2 : List (List Char))
    (lines : List rpy_generator.ScriptLine)
    (h : ∀ x, x ∈ k1 ↔ x ∈ k2) :
    rpy_generator.firstSeenNew k1 lines =
      rpy_generator.firstSeenNew k2 lines := by
  induction lines generalizing k1 k2 with
  | nil => rfl
  | cons l ls ih =>
    cases hcn : l.character_name with
    | none =>
      simp only [rpy_generator.firstSeenNew, hcn]
      exact ih k1 k2 h
    | some n =>
      simp only [rpy_generator.firstSeenNew, hcn]
      by_cases hc : n ≠ [] ∧ n ∉ k1
      · rw [if_pos hc, if_pos ⟨hc.1, fun hm => hc.2 ((h n).mpr hm)⟩]
        congr 1
        exact ih _ _ (fun x => by simp only [List.mem_cons]; rw [h x])
      · rw [if_neg hc, if_neg (fun hc2 =>
          hc ⟨hc2.1, fun hm => hc2.2 ((h n).mp hm)⟩)]
        exact ih k1 k2 h

theorem write_lines_map_eq (cm : rpy_generator.CharMap)
    (lines : List rpy_generator.ScriptLine) :
    (rpy_generator.write_lines_to_script_file cm lines).1 =
      cm ++ rpy_generator.assignIds cm.length
        (rpy_generator.firstSeenNew (cm.map Prod.fst) lines) := by
  induction lines generalizing cm with
  | nil =>
    simp [rpy_generator.write_lines_to_script_file,
      rpy_generator.firstSeenNew, rpy_generator.assignIds]
  | cons l ls ih =>
    rw [rpy_generator.write_lines_to_script_file]
    cases hcn : l.character_name with
    | none =>
      simp only [rpy_generator.firstSeenNew, hcn]
      simp only [rpy_generator.write_line_step, hcn]
      exact ih cm
    | some n =>
      simp only [rpy_generator.firstSeenNew, hcn]
      by_cases hne : n = []
      · subst hne
        simp only [rpy_generator.write_line_step, hcn]
        rw [if_pos trivial,
          if_neg (show ¬(([] : List Char) ≠ [] ∧
            ([] : List Char) ∉ cm.map Prod.fst) by simp)]
        exact ih cm
      · cases hlook : rpy_generator.lookupName cm n with
        | some cid =>
          have hmem : n ∈ cm.map Prod.fst := by
            by_contra hnm
            rw [← lookupName_none_iff] at hnm
            rw [hnm] at hlook
            exact Option.noConfusion hlook
          simp only [rpy_generator.write_line_step, hcn, if_neg hne, hlook]
          rw [if_neg (fun hc => hc.2 hmem)]
          exact ih cm
        | none =>
          have hnm : n ∉ cm.map Prod.fst :=
            (lookupName_none_iff cm n).mp hlook
          simp only [rpy_generator.write_line_step, hcn, if_neg hne, hlook]
          rw [if_pos ⟨hne, hnm⟩]
          rw [ih (cm ++ [(n, rpy_generator.characterIdFor cm.length)])]
          have hkeys : (cm ++ [(n, rpy_generator.characterIdFor
              cm.length)]).map Prod.fst = cm.map Prod.fst ++ [n] := by
            simp
          have hlen2 : (cm ++ [(n, rpy_generator.characterIdFor
              cm.length)]).length = cm.length + 1 := by
            simp
          have hfsn : rpy_generator.firstSeenNew
              (cm.map Prod.fst ++ [n]) ls =
              rpy_generator.firstSeenNew (n :: cm.map Prod.fst) ls := by
            apply firstSeenNew_congr
            intro x
            simp only [List.mem_append, List.mem_cons,
              List.not_mem_nil, or_false]
            exact Or.comm
          rw [hkeys, hlen2, hfsn, rpy_generator.assignIds,
            List.append_assoc]
          rfl

theorem write_lines_lookup_preserved (cm : rpy_generator.CharMap)
    (lines : List rpy_generator.ScriptLine) (k v : List Char)
    (h : rpy_generator.lookupName cm k = some v) :
    rpy_generator.lookupName
      (rpy_generator.write_lines_to_script_file cm lines).1 k = some v := by
  rw [write_lines_map_eq]
  exact lookupName_append_left _ _ _ _ h

theorem write_lines_texts_length (cm : rpy_generator.CharMap)
    (lines : List rpy_generator.ScriptLine) :
    (rpy_generator.write_lines_to_script_file cm lines).2.1.length =
      lines.length := by
  induction lines generalizing cm with
  | nil => rfl
  | cons l ls ih =>
    show (rpy_generator.write_lines_to_script_file
        (rpy_generator.write_line_step cm l).1 ls).2.1.length + 1 =
      ls.length + 1
    rw [ih]

theorem write_lines_text_spec (cm : rpy_generator.CharMap)
    (lines : List rpy_generator.ScriptLine) :
    ∀ i (h1 : i < lines.length)
      (h2 : i < (rpy_generator.write_lines_to_script_file
        cm lines).2.1.length) (s : List Char),
      (lines.get ⟨i, h1⟩).character_name = some s → s ≠ [] →
      (rpy_generator.write_lines_to_script_file cm lines).2.1.get
          ⟨i, h2⟩ =
        rpy_generator.renderScriptLine
          (rpy_generator.lookupName
            (rpy_generator.write_lines_to_script_file cm lines).1 s)
          (lines.get ⟨i, h1⟩).phrase := by
  induction lines generalizing cm with
  | nil =>
    intro i h1
    exact absurd h1 (Nat.not_lt_zero i)
  | cons l ls ih =>
    intro i h1 h2 s hs hsne
    cases i with
    | zero =>
      have hs0 : l.character_name = some s := hs
      show (rpy_generator.write_line_step cm l).2 =
        rpy_generator.renderScriptLine
          (rpy_generator.lookupName
            (rpy_generator.write_lines_to_script_file
              (rpy_generator.write_line_step cm l).1 ls).1 s)
          l.phrase
      cases hlook : rpy_generator.lookupName cm s with
      | some cid =>
        have hstep1 : (rpy_generator.write_line_step cm l).1 = cm := by
          simp [rpy_generator.write_line_step, hs0, hsne, hlook]
        have hstep2 : (rpy_generator.write_line_step cm l).2 =
            rpy_generator.renderScriptLine (some cid) l.phrase := by
          simp [rpy_generator.write_line_step, hs0, hsne, hlook]
        rw [hstep2, hstep1,
          write_lines_lookup_preserved cm ls s cid hlook]
      | none =>
        have hstep1 : (rpy_generator.write_line_step cm l).1 =
            cm ++ [(s, rpy_generator.characterIdFor cm.length)] := by
          simp [rpy_generator.write_line_step, hs0, hsne, hlook]
        have hstep2 : (rpy_generator.write_line_step cm l).2 =
            rpy_generator.renderScriptLine
              (some (rpy_generator.characterIdFor cm.length)) l.phrase := by
          simp [rpy_generator.write_line_step, hs0, hsne, hlook]
        rw [hstep2, hstep1,
          write_lines_lookup_preserved _ ls s _
            (lookupName_append_self cm s _ hlook)]
    | succ i =>
      have h1s : i < ls.length := by
        simp only [List.length_cons] at h1
        omega
      have h2s : i < (rpy_generator.write_lines_to_script_file
          (rpy_generator.write_line_step cm l).1 ls).2.1.length := by
        rw [write_lines_texts_length]
        exact h1s
      exact ih (rpy_generator.write_line_step cm l).1 i h1s h2s s hs hsne

/-- C8: processing parsed lines against a character map assigns each new
non-empty speaker an identifier at its first occurrence, in first-seen order
with consecutive indices starting at the map's size; mappings already present
are never changed; and the text emitted for every spoken line uses the
identifier stored for its speaker in the final map (hence the same
identifier on every line of that speaker in the run). -/
theorem claim_C8 (cm : rpy_generator.CharMap)
    (lines : List rpy_generator.ScriptLine) :
    (rpy_generator.write_lines_to_script_file cm lines).1 =
      cm ++ rpy_generator.assignIds cm.length
        (rpy_generator.firstSeenNew (cm.map Prod.fst) lines) ∧
    (∀ k v, rpy_generator.lookupName cm k = some v →
      rpy_generator.lookupName
        (rpy_generator.write_lines_to_script_file cm lines).1 k =
        some v) ∧
    (rpy_generator.write_lines_to_script_file cm lines).2.1.length =
      lines.length ∧
    (∀ i (h1 : i < lines.length)
      (h2 : i < (rpy_generator.write_lines_to_script_file
        cm lines).2.1.length) (s : List Char),
      (lines.get ⟨i, h1⟩).character_name = some s → s ≠ [] →
      (rpy_generator.write_lines_to_script_file cm lines).2.1.get
          ⟨i, h2⟩ =
        rpy_generator.renderScriptLine
          (rpy_generator.lookupName
            (rpy_generator.write_lines_to_script_file cm lines).1 s)
          (lines.get ⟨i, h1⟩).phrase) :=
  ⟨write_lines_map_eq cm lines,
   fun k v h => write_lines_lookup_preserved cm lines k v h,
   write_lines_texts_length cm lines,
   fun i h1 h2 s hs hsne =>
     write_lines_text_spec cm lines i h1 h2 s hs hsne⟩

/-- Witness for C8: a pre-seeded speaker keeps its identifier and a repeated
speaker's later line is rendered with the identifier stored for it. -/
theorem claim_C8_witness :
    rpy_generator.lookupName
      (rpy_generator.write_lines_to_script_file
        [(strL "Zoe", strL "z9")]
        [⟨some (strL "Alice"), strL "Hi"⟩, ⟨some (strL "Zoe"), strL "Yo"⟩,
         ⟨some (strL "Alice"), strL "Again"⟩]).1 (strL "Zoe") =
      some (strL "z9") ∧
    (rpy_generator.write_lines_to_script_file
        [(strL "Zoe", strL "z9")]
        [⟨some (strL "Alice"), strL "Hi"⟩, ⟨some (strL "Zoe"), strL "Yo"⟩,
         ⟨some (strL "Alice"), strL "Again"⟩]).2.1.get ⟨2, by decide⟩ =
      rpy_generator.renderScriptLine
        (rpy_generator.lookupName
          (rpy_generator.write_lines_to_script_file
            [(strL "Zoe", strL "z9")]
            [⟨some (strL "Alice"), strL "Hi"⟩,
             ⟨some (strL "Zoe"), strL "Yo"⟩,
             ⟨some (strL "Alice"), strL "Again"⟩]).1 (strL "Alice"))
        (strL "Again") :=
  ⟨(claim_C8 [(strL "Zoe", strL "z9")]
      [⟨some (strL "Alice"), strL "Hi"⟩, ⟨some (strL "Zoe"), strL "Yo"⟩,
       ⟨some (strL "Alice"), strL "Again"⟩]).2.1 (strL "Zoe") (strL "z9")
      (by decide),
   (claim_C8 [(strL "Zoe", strL "z9")]
      [⟨some (strL "Alice"), strL "Hi"⟩, ⟨some (strL "Zoe"), strL "Yo"⟩,
       ⟨some (strL "Alice"), strL "Again"⟩]).2.2.2 2 (by decide)
      (by decide) (strL "Alice") (by decide) (by decide)⟩

end RpyTools
